import Mathlib

/-!
Shallow embedding of the RealityBuilder backend (ingestion pipeline and query
API) used to settle the specification claims.

Sources embedded here:
  backend/data_processing/src/utils.ts      (parsePrice, convertToUSD, parseArea, convertToSqft)
  backend/data_processing/src/index.ts      (findPotentialDuplicates, normalizeAndProcessData)
  backend/api_service/src/index.ts          (generateCacheKey, GET /properties handler)
  the rate-limited API service variant      (rateLimiterMiddleware)

JavaScript strings are Lean String values, JavaScript numbers are modelled as
NaN-or-rational, nullable values as Option, and thrown exceptions as
Except.error.
-/

/-- JavaScript number restricted to the values arising in this code base:
either NaN or a rational value. -/
inductive JSNum where
  | nan : JSNum
  | num (q : ℚ) : JSNum
  deriving DecidableEq

instance {ε α : Type} [DecidableEq ε] [DecidableEq α] : DecidableEq (Except ε α) :=
  fun a b =>
    match a, b with
    | .ok x, .ok y =>
      if h : x = y then isTrue (by rw [h])
      else isFalse (by intro hc; cases hc; exact h rfl)
    | .error x, .error y =>
      if h : x = y then isTrue (by rw [h])
      else isFalse (by intro hc; cases hc; exact h rfl)
    | .ok _, .error _ => isFalse (by intro h; cases h)
    | .error _, .ok _ => isFalse (by intro h; cases h)

/-- JavaScript truthiness of a number: NaN and 0 are falsy. -/
def JSNum.truthy : JSNum → Bool
  | .nan => false
  | .num q => q != 0

/-- JavaScript truthiness of a nullable string: null, undefined and the empty
string are falsy. -/
def jsTruthyStr : Option String → Bool
  | none => false
  | some s => s != ""

/-- Whitespace recognised by the JavaScript regex class and trim in the
inputs of this code base. -/
def jsIsWs (c : Char) : Bool :=
  c == ' ' || c == '\t' || c == '\n' || c == '\r'

/-- Character-wise lowercasing (JavaScript toLowerCase on the alphabets
appearing in this code base). -/
def strLower (s : String) : String := String.mk (s.data.map Char.toLower)

/-- Character-wise uppercasing (JavaScript toUpperCase). -/
def strUpper (s : String) : String := String.mk (s.data.map Char.toUpper)

/-- Does the character list start with the given pattern. -/
def startsWithL : List Char → List Char → Bool
  | _, [] => true
  | [], _ :: _ => false
  | a :: as, p :: ps => a == p && startsWithL as ps

/-- Case-insensitive variant of startsWithL. -/
def startsWithCI (l pat : List Char) : Bool :=
  startsWithL (l.map Char.toLower) (pat.map Char.toLower)

/-- Substring occurrence on character lists. -/
def containsAux (needle : List Char) : List Char → Bool
  | [] => startsWithL [] needle
  | c :: rest => startsWithL (c :: rest) needle || containsAux needle rest

/-- JavaScript String.prototype.includes. -/
def strContains (hay needle : String) : Bool := containsAux needle.data hay.data

/-- JavaScript String.prototype.trim on a character list. -/
def trimL (l : List Char) : List Char :=
  ((l.dropWhile jsIsWs).reverse.dropWhile jsIsWs).reverse

/-- JavaScript String.prototype.trim. -/
def strTrim (s : String) : String := String.mk (trimL s.data)

/-- Membership in the regex character class [0-9.]. -/
def isDigitDot (c : Char) : Bool := c.isDigit || c == '.'

/-- Numeric value of a decimal digit string. -/
def digitsToNat (l : List Char) : Nat :=
  l.foldl (fun acc c => 10 * acc + (c.toNat - 48)) 0

/-- Rational value of an integer digit string followed by a fraction digit
string.  The fraction-free case avoids rational arithmetic so that concrete
integer inputs evaluate inside the kernel. -/
def decimalValue (ds frac : List Char) : ℚ :=
  if frac.isEmpty then (digitsToNat ds : ℚ)
  else (digitsToNat ds : ℚ) + (digitsToNat frac : ℚ) / (10 : ℚ) ^ frac.length

/-- parseFloat applied to a token drawn from the character class [0-9.]: the
longest valid decimal-literal prefix, NaN when there is none. -/
def parseFloatDigitsDots (l : List Char) : JSNum :=
  let intPart := l.takeWhile Char.isDigit
  let rest := l.drop intPart.length
  match intPart, rest with
  | [], '.' :: r2 =>
    let frac := r2.takeWhile Char.isDigit
    if frac.isEmpty then .nan
    else .num (decimalValue [] frac)
  | [], _ => .nan
  | ds, '.' :: r2 =>
    let frac := r2.takeWhile Char.isDigit
    .num (decimalValue ds frac)
  | ds, _ => .num (decimalValue ds [])

/-- First match of the regex [0-9.]+ in a character list. -/
def firstDigitsRun : List Char → Option (List Char)
  | [] => none
  | c :: rest =>
    if isDigitDot c then some (c :: rest.takeWhile isDigitDot)
    else firstDigitsRun rest

/-- Exponent suffix of a JavaScript float literal: optional sign then decimal
digits; an incomplete exponent is ignored (value 0). -/
def expDigits (l : List Char) : Int :=
  let p : Int × List Char :=
    match l with
    | '-' :: t => (-1, t)
    | '+' :: t => (1, t)
    | t => (1, t)
  let ds := p.2.takeWhile Char.isDigit
  if ds.isEmpty then 0 else p.1 * (digitsToNat ds : Int)

/-- Scale a rational by a power of ten, avoiding arithmetic when the exponent
is zero. -/
def applyExp (m : ℚ) (e : Int) : ℚ :=
  if e = 0 then m else m * (10 : ℚ) ^ e

/-- Negate when the flag is set. -/
def applySign (neg : Bool) (m : ℚ) : ℚ :=
  if neg then -m else m

/-- JavaScript parseFloat on an arbitrary string: leading whitespace, optional
sign, decimal digits with optional fraction and optional exponent; NaN when no
digits are found.  (The Infinity literal does not arise in this code base.) -/
def jsParseFloat (s : String) : JSNum :=
  let l := s.data.dropWhile jsIsWs
  let p : Bool × List Char :=
    match l with
    | '-' :: t => (true, t)
    | '+' :: t => (false, t)
    | t => (false, t)
  let l1 := p.2
  let intPart := l1.takeWhile Char.isDigit
  let r1 := l1.drop intPart.length
  let m : ℚ × Bool × List Char :=
    match intPart, r1 with
    | [], '.' :: rr =>
      let frac := rr.takeWhile Char.isDigit
      if frac.isEmpty then (0, false, r1)
      else (decimalValue [] frac, true, rr.drop frac.length)
    | [], _ => (0, false, r1)
    | ds, '.' :: rr =>
      let frac := rr.takeWhile Char.isDigit
      (decimalValue ds frac, true, rr.drop frac.length)
    | ds, _ => (decimalValue ds [], true, r1)
  if m.2.1 then
    let e : Int :=
      match m.2.2 with
      | 'e' :: t => expDigits t
      | 'E' :: t => expDigits t
      | _ => 0
    .num (applySign p.1 (applyExp m.1 e))
  else .nan

/-- JavaScript integer-parsing result. -/
inductive JSInt where
  | nan : JSInt
  | num (n : Int) : JSInt
  deriving DecidableEq

/-- Value of a hexadecimal digit. -/
def hexVal (c : Char) : Nat :=
  if c.isDigit then c.toNat - 48 else (c.toLower.toNat - 97) + 10

/-- Numeric value of a hexadecimal digit string. -/
def hexDigitsToNat (l : List Char) : Nat :=
  l.foldl (fun acc c => 16 * acc + hexVal c) 0

/-- Is the character a hexadecimal digit. -/
def isHexDigitJS (c : Char) : Bool :=
  c.isDigit || (decide ('a' ≤ c.toLower) && decide (c.toLower ≤ 'f'))

/-- JavaScript parseInt with no radix argument: leading whitespace, optional
sign, then decimal digits, with 0x or 0X selecting hexadecimal; NaN when no
digits follow. -/
def jsParseInt (s : String) : JSInt :=
  let l := s.data.dropWhile jsIsWs
  let p : Int × List Char :=
    match l with
    | '-' :: t => (-1, t)
    | '+' :: t => (1, t)
    | t => (1, t)
  match p.2 with
  | '0' :: 'x' :: t =>
    let hs := t.takeWhile isHexDigitJS
    if hs.isEmpty then .nan else .num (p.1 * (hexDigitsToNat hs : Int))
  | '0' :: 'X' :: t =>
    let hs := t.takeWhile isHexDigitJS
    if hs.isEmpty then .nan else .num (p.1 * (hexDigitsToNat hs : Int))
  | l1 =>
    let ds := l1.takeWhile Char.isDigit
    if ds.isEmpty then .nan else .num (p.1 * (digitsToNat ds : Int))

/-- Result record of parsePrice (utils.ts lines 3-6). -/
structure ParsedPrice where
  amount : Option JSNum
  currency : Option String
  deriving DecidableEq

/-- Result record of parseArea (utils.ts lines 8-11). -/
structure ParsedArea where
  value : Option JSNum
  unit : Option String
  deriving DecidableEq

/-- Three lowercased characters forming one of the codes usd, eur, cad, gbp. -/
def isCurrencyCode (a b c : Char) : Bool :=
  let w := [a.toLower, b.toLower, c.toLower]
  w == ['u', 's', 'd'] || w == ['e', 'u', 'r'] || w == ['c', 'a', 'd'] || w == ['g', 'b', 'p']

/-- Global regex replace of usd|eur|cad|gbp (case-insensitive) by the empty
string, utils.ts line 40. -/
def removeCurrencyCodes : List Char → List Char
  | a :: b :: c :: rest =>
    if isCurrencyCode a b c then removeCurrencyCodes rest
    else a :: removeCurrencyCodes (b :: c :: rest)
  | l => l

/-- Fuelled scanner for the global regex replace of the pattern
/\/month|\s*per month/gi by the empty string, utils.ts line 41.  Each step
consumes at least one character, so fuel equal to the list length suffices. -/
def removeMonthAux : Nat → List Char → List Char
  | 0, l => l
  | _ + 1, [] => []
  | fuel + 1, c :: rest =>
    if startsWithCI (c :: rest) ['/', 'm', 'o', 'n', 't', 'h'] then
      removeMonthAux fuel ((c :: rest).drop 6)
    else
      let k := ((c :: rest).takeWhile jsIsWs).length
      if startsWithCI ((c :: rest).drop k) ['p', 'e', 'r', ' ', 'm', 'o', 'n', 't', 'h'] then
        removeMonthAux fuel ((c :: rest).drop (k + 9))
      else c :: removeMonthAux fuel rest

/-- Replace every /month and whitespace-prefixed per month by the empty
string. -/
def removeMonth (l : List Char) : List Char := removeMonthAux l.length l

/-- The cleaning pipeline inside parsePrice, utils.ts lines 38-43: strip the
currency symbols, the currency codes, the per-month markers and the thousands
separators, then trim. -/
def cleanedPriceString (s : String) : String :=
  let l1 := s.data.filter (fun c => !(c == '$' || c == '€' || c == '£'))
  let l2 := removeCurrencyCodes l1
  let l3 := removeMonth l2
  let l4 := l3.filter (fun c => c != ',')
  String.mk (trimL l4)

/-- Embedding of parsePrice, utils.ts lines 17-54, under JavaScript runtime
semantics.  The helper price_string_lower (utils.ts line 195) is a function,
not a lowercased string, so the subexpressions of the form
price_string_lower.includes(..) in the EUR and GBP detection branches call a
member that does not exist and raise a TypeError; the thrown error is modelled
as Except.error.  Consequently the CAD and GBP branches and the no-currency
fall-through are unreachable: any input that does not contain a dollar sign,
the code usd (case-insensitive) or the euro sign throws. -/
def parsePrice : Option String → Except String ParsedPrice
  | none => .ok ⟨none, none⟩
  | some s =>
    if s == "" then .ok ⟨none, none⟩
    else
      let currencyE : Except String (Option String) :=
        if strContains s "$" || strContains (strLower s) "usd" then .ok (some "USD")
        else if strContains s "€" then .ok (some "EUR")
        else .error "TypeError: price_string_lower.includes is not a function"
      match currencyE with
      | .error e => .error e
      | .ok currency =>
        let amount : Option JSNum :=
          match firstDigitsRun (cleanedPriceString s).data with
          | some tok => some (parseFloatDigitsDots tok)
          | none => none
        .ok ⟨amount, currency⟩

/-- Modelled from the spec: detect the currency by scanning, in order, for the
symbols and codes dollar/usd, euro/eur, cad, pound/gbp, case-insensitively,
first match winning, with CAD matched only by its code; when none occur the
currency is absent and the function returns normally. -/
def specDetectCurrency (s : String) : Option String :=
  let lower := strLower s
  if strContains s "$" || strContains lower "usd" then some "USD"
  else if strContains s "€" || strContains lower "eur" then some "EUR"
  else if strContains lower "cad" then some "CAD"
  else if strContains s "£" || strContains lower "gbp" then some "GBP"
  else none

/-- NaN-propagating multiplication of a JavaScript number by a rate. -/
def jsMulRate : JSNum → ℚ → JSNum
  | .nan, _ => .nan
  | .num q, r => .num (q * r)

/-- Embedding of convertToUSD, utils.ts lines 60-84: mock rates
USD 1, EUR 1.08, CAD 0.73, GBP 1.26; unknown currency yields null. -/
def convertToUSD (amount : Option JSNum) (currency : Option String) : Option JSNum :=
  match amount, currency with
  | none, _ => none
  | _, none => none
  | some a, some c =>
    match strUpper c with
    | "USD" => some (jsMulRate a 1)
    | "EUR" => some (jsMulRate a (1.08 : ℚ))
    | "CAD" => some (jsMulRate a (0.73 : ℚ))
    | "GBP" => some (jsMulRate a (1.26 : ℚ))
    | _ => none

/-- Fuelled scanner for the global regex replace of
/sqft|sq\.ft|ft2|m²|sqm|m2|acres|acre/gi by the empty string, utils.ts
line 110, trying the alternatives in their written order at each position. -/
def removeAreaTokensAux : Nat → List Char → List Char
  | 0, l => l
  | _ + 1, [] => []
  | fuel + 1, c :: rest =>
    let l := c :: rest
    if startsWithCI l ['s', 'q', 'f', 't'] then removeAreaTokensAux fuel (l.drop 4)
    else if startsWithCI l ['s', 'q', '.', 'f', 't'] then removeAreaTokensAux fuel (l.drop 5)
    else if startsWithCI l ['f', 't', '2'] then removeAreaTokensAux fuel (l.drop 3)
    else if startsWithCI l ['m', '²'] then removeAreaTokensAux fuel (l.drop 2)
    else if startsWithCI l ['s', 'q', 'm'] then removeAreaTokensAux fuel (l.drop 3)
    else if startsWithCI l ['m', '2'] then removeAreaTokensAux fuel (l.drop 2)
    else if startsWithCI l ['a', 'c', 'r', 'e', 's'] then removeAreaTokensAux fuel (l.drop 5)
    else if startsWithCI l ['a', 'c', 'r', 'e'] then removeAreaTokensAux fuel (l.drop 4)
    else c :: removeAreaTokensAux fuel rest

/-- Embedding of parseArea, utils.ts lines 90-120. -/
def parseArea : Option String → ParsedArea
  | none => ⟨none, none⟩
  | some s =>
    if s == "" then ⟨none, none⟩
    else
      let lower := strLower s
      let unit : Option String :=
        if strContains lower "sqft" || strContains lower "sq.ft" || strContains lower "ft2" then
          some "sqft"
        else if strContains lower "m²" || strContains lower "sqm" || strContains lower "m2" then
          some "m²"
        else if strContains lower "acres" || strContains lower "acre" then some "acres"
        else none
      let cleaned :=
        trimL ((removeAreaTokensAux lower.data.length lower.data).filter (fun c => c != ','))
      let value : Option JSNum :=
        match firstDigitsRun cleaned with
        | some tok => some (parseFloatDigitsDots tok)
        | none => none
      ⟨value, unit⟩

/-- Embedding of convertToSqft, utils.ts lines 125-151: factors 1 for square
feet, 10.7639 for square metres, 43560 for acres; unknown unit yields null. -/
def convertToSqft (value : Option JSNum) (unit : Option String) : Option JSNum :=
  match value, unit with
  | none, _ => none
  | _, none => none
  | some v, some u =>
    match strLower u with
    | "sqft" => some (jsMulRate v 1)
    | "sq.ft" => some (jsMulRate v 1)
    | "ft2" => some (jsMulRate v 1)
    | "m²" => some (jsMulRate v (10.7639 : ℚ))
    | "sqm" => some (jsMulRate v (10.7639 : ℚ))
    | "m2" => some (jsMulRate v (10.7639 : ℚ))
    | "acres" => some (jsMulRate v (43560 : ℚ))
    | "acre" => some (jsMulRate v (43560 : ℚ))
    | _ => none

/-- Fields of the processed record produced by the price and area section of
normalizeAndProcessData (data_processing/src/index.ts lines 133-148). -/
structure PriceAreaFields where
  price_original_numeric : Option JSNum
  currency_original : Option String
  normalized_price_usd : Option JSNum
  area_original_value : Option JSNum
  area_unit_original : Option String
  normalized_area_sqft : Option JSNum
  deriving DecidableEq

/-- JavaScript a || b on nullable strings: the first truthy operand. -/
def jsOrStr (a b : Option String) : Option String :=
  if jsTruthyStr a then a else b

/-- JavaScript truthiness of a nullable number. -/
def jsTruthyOptNum : Option JSNum → Bool
  | none => false
  | some n => n.truthy

/-- Price and area portion of normalizeAndProcessData
(data_processing/src/index.ts lines 133-148): parse the price text, keep the
parsed amount and currency, convert to USD only when both parse results are
truthy, and likewise for the area.  A TypeError thrown by parsePrice aborts
processing of the whole message (the consumer nacks it). -/
def processPriceArea (price_text price area_text area : Option String) :
    Except String PriceAreaFields :=
  match parsePrice (jsOrStr price_text price) with
  | .error e => .error e
  | .ok parsedPrice =>
    .ok ⟨parsedPrice.amount, parsedPrice.currency,
      if jsTruthyOptNum parsedPrice.amount && jsTruthyStr parsedPrice.currency then
        convertToUSD parsedPrice.amount parsedPrice.currency
      else none,
      (parseArea (jsOrStr area_text area)).value,
      (parseArea (jsOrStr area_text area)).unit,
      if jsTruthyOptNum (parseArea (jsOrStr area_text area)).value &&
          jsTruthyStr (parseArea (jsOrStr area_text area)).unit then
        convertToSqft (parseArea (jsOrStr area_text area)).value
          (parseArea (jsOrStr area_text area)).unit
      else none⟩

/-- A row returned by the duplicate-candidate SQL query of
findPotentialDuplicates (data_processing/src/index.ts lines 108-115).
Timestamps are modelled as naturals ordered like the SQL timestamps. -/
structure DupCandidate where
  id : Nat
  title : String
  source_name : String
  latitude : ℚ
  longitude : ℚ
  status : String
  scrape_timestamp : Nat
  deriving DecidableEq

/-- The processed property fields consulted by findPotentialDuplicates. -/
structure ProcessedProp where
  title : String
  source_name : String
  latitude : Option ℚ
  longitude : Option ℚ
  deriving DecidableEq

/-- Row order produced by the SQL clause
ORDER BY title_similarity DESC, scrape_timestamp DESC, where
title_similarity is similarity(row.title, new.title). -/
def dupOrder (sim : String → String → ℚ) (newTitle : String) (a b : DupCandidate) : Prop :=
  sim a.title newTitle > sim b.title newTitle ∨
    (sim a.title newTitle = sim b.title newTitle ∧ b.scrape_timestamp ≤ a.scrape_timestamp)

instance (sim : String → String → ℚ) (t : String) : DecidableRel (dupOrder sim t) := by
  intro a b
  unfold dupOrder
  infer_instance

/-- The WHERE clause of the duplicate-candidate query: active status, a
different source, latitude and longitude inside the configured bands, and
title similarity at least the threshold. -/
def dupWhere (sim : String → String → ℚ) (latThr lonThr simThr : ℚ)
    (p : ProcessedProp) (la lo : ℚ) (r : DupCandidate) : Bool :=
  r.status == "active" && r.source_name != p.source_name &&
  decide (la - latThr ≤ r.latitude) && decide (r.latitude ≤ la + latThr) &&
  decide (lo - lonThr ≤ r.longitude) && decide (r.longitude ≤ lo + lonThr) &&
  decide (simThr ≤ sim r.title p.title)

/-- Embedding of findPotentialDuplicates (data_processing/src/index.ts lines
103-121).  The relational store is modelled as a list of rows, the pg_trgm
similarity function as a parameter, and a failure of the candidate query as
the flag queryFails; a failing query is caught and yields the empty candidate
list.  When coordinates or the title are missing the check is skipped. -/
def dupQuery (sim : String → String → ℚ) (latThr lonThr simThr : ℚ)
    (db : List DupCandidate) (p : ProcessedProp) (la lo : ℚ) : List DupCandidate :=
  List.insertionSort (dupOrder sim p.title)
    (db.filter (dupWhere sim latThr lonThr simThr p la lo))

def findPotentialDuplicates (sim : String → String → ℚ)
    (latThr lonThr simThr : ℚ) (db : List DupCandidate) (queryFails : Bool)
    (p : ProcessedProp) : List DupCandidate :=
  match p.latitude, p.longitude with
  | some la, some lo =>
    if p.title == "" then []
    else if queryFails then []
    else dupQuery sim latThr lonThr simThr db p la lo
  | _, _ => []

/-- Deduplication outcome fields of the processed record. -/
structure DedupResult where
  status : String
  duplicate_of_property_id : Option Nat
  deriving DecidableEq

/-- Deduplication tail of normalizeAndProcessData (data_processing/src/index.ts
lines 201-210): status starts as active with a null reference and is
overwritten from the first candidate when the candidate list is non-empty. -/
def applyDedup (cands : List DupCandidate) : DedupResult :=
  match cands with
  | [] => ⟨"active", none⟩
  | c :: _ => ⟨"potential_duplicate", some c.id⟩

/-- Split a character list at commas (JavaScript split on the comma). -/
def splitCommaAux : List Char → List Char → List (List Char)
  | [], acc => [acc.reverse]
  | c :: rest, acc =>
    if c == ',' then acc.reverse :: splitCommaAux rest []
    else splitCommaAux rest (c :: acc)

/-- Comma-split, trim each item and drop the empty items: the treatment of
comma lists in the GET /properties handler. -/
def splitCsvTrim (s : String) : List String :=
  ((splitCommaAux s.data []).map (fun l => String.mk (trimL l))).filter (fun t => t != "")

/-- First-occurrence lookup in an association list, modelling property access
on a JavaScript object with unique keys. -/
def lookupKV (k : String) : List (String × String) → Option String
  | [] => none
  | p :: rest => if p.1 = k then some p.2 else lookupKV k rest

/-- Lexicographic comparison of character lists by code point, the order used
by the JavaScript default sort on the strings of this code base. -/
def charListLe : List Char → List Char → Bool
  | [], _ => true
  | _ :: _, [] => false
  | a :: as, b :: bs =>
    if a = b then charListLe as bs
    else decide (a.toNat < b.toNat)

/-- The sort order on parameter keys as a decidable relation. -/
def strLeP (a b : String) : Prop := charListLe a.data b.data = true

instance : DecidableRel strLeP := fun a b =>
  inferInstanceAs (Decidable (charListLe a.data b.data = true))

/-- JSON escaping of one character (quote and backslash, the only characters
needing escapes among the inputs considered). -/
def jsonEscapeChar (c : Char) : List Char :=
  if c == '"' then ['\\', '"']
  else if c == '\\' then ['\\', '\\']
  else [c]

/-- Deterministic JSON serialization of an object with string values, in key
order, as produced by JSON.stringify. -/
def jsonStringifyObj (ps : List (String × String)) : String :=
  let part := fun (p : String × String) =>
    "\"" ++ String.mk (p.1.data.map jsonEscapeChar).flatten ++ "\":\"" ++
      String.mk (p.2.data.map jsonEscapeChar).flatten ++ "\""
  "\x7b" ++ String.intercalate "," (ps.map part) ++ "\x7d"

/-- Embedding of generateCacheKey (api_service/src/index.ts lines 58-68):
sort the parameter keys, rebuild the object in sorted key order, serialize it
as JSON and hash.  The MD5 hash is modelled as an arbitrary function of the
serialized string, which is all the cache-key claims depend on. -/
def generateCacheKey (md5 : String → String) (pre : String)
    (queryParams : List (String × String)) : String :=
  let sortedKeys := List.insertionSort strLeP (queryParams.map Prod.fst)
  let sortedQuery := sortedKeys.map (fun k => (k, (lookupKV k queryParams).getD ""))
  let queryString := jsonStringifyObj sortedQuery
  pre ++ ":" ++ md5 queryString

/-- The fields of an indexed listing document consulted by the GET /properties
filters under study. -/
structure Listing where
  property_type : Option String
  source_name : String
  amenities : List String
  description : String
  status : String
  deriving DecidableEq

/-- The property_type filter of the GET /properties handler
(api_service/src/index.ts lines 197-200) evaluated against one document under
Elasticsearch terms-query semantics: the handler pushes a terms query on the
field source_name.keyword, so a document matches exactly when its source_name
is one of the requested comma-separated values. -/
def propertyTypeFilterMatches (property_type : Option String) (doc : Listing) : Bool :=
  match property_type with
  | none => true
  | some s =>
    if s == "" then true
    else
      let types := splitCsvTrim s
      if types.isEmpty then true
      else types.contains doc.source_name

/-- Modelled from the spec: the property_type parameter is a comma list,
OR-combined as an exact match on the own normalized property_type field of the listing
field. -/
def specPropertyTypeMatches (property_type : Option String) (doc : Listing) : Bool :=
  match property_type with
  | none => true
  | some s =>
    if s == "" then true
    else
      let types := splitCsvTrim s
      if types.isEmpty then true
      else
        match doc.property_type with
        | some t => types.contains t
        | none => false

/-- JavaScript Array.prototype.join with a single-space separator. -/
def joinSpace : List String → String
  | [] => ""
  | [a] => a
  | a :: rest => a ++ " " ++ joinSpace rest

/-- The query string the handler builds from the amenities parameter
(api_service/src/index.ts lines 217-220): comma-split, trim, drop empties,
join with single spaces; a falsy parameter or an empty joined string pushes
no filter. -/
def amenityQueryString (amenities : Option String) : Option String :=
  match amenities with
  | none => none
  | some s =>
    if s == "" then none
    else if joinSpace (splitCsvTrim s) == "" then none
    else some (joinSpace (splitCsvTrim s))

/-- Split a character list on non-alphanumeric characters. -/
def splitNonAlnumAux : List Char → List Char → List (List Char)
  | [], acc => [acc.reverse]
  | c :: rest, acc =>
    if c.isAlphanum then splitNonAlnumAux rest (c :: acc)
    else acc.reverse :: splitNonAlnumAux rest []

/-- Model of the Elasticsearch standard analyzer on the text fields involved:
lowercase and split into maximal alphanumeric tokens. -/
def analyzeTokens (s : String) : List String :=
  ((splitNonAlnumAux (strLower s).data []).map String.mk).filter (fun t => t != "")

/-- Elasticsearch match query with operator and: every analyzed token of the
query must occur among the analyzed tokens of the field; a query that
analyzes to no tokens matches no document (zero_terms_query none). -/
def matchQueryAnd (q field : String) : Bool :=
  let qts := analyzeTokens q
  if qts.isEmpty then false
  else qts.all (fun t => (analyzeTokens field).contains t)

/-- The amenities filter of the GET /properties handler
(api_service/src/index.ts lines 217-220) evaluated against one document: the
handler pushes a match query with operator and on the description field. -/
def amenitiesFilterMatches (amenities : Option String) (doc : Listing) : Bool :=
  match amenityQueryString amenities with
  | none => true
  | some q => matchQueryAnd q doc.description

/-- The list of requested amenity items the handler works from: empty when
the parameter is absent or falsy, else the trimmed non-empty comma-separated
items. -/
def amenityItems : Option String → List String
  | none => []
  | some s => if s == "" then [] else splitCsvTrim s

/-- Modelled from the spec: the amenities parameter is a comma list,
AND-combined on the amenities field of the listing, compared lower-cased; empty
input applies no filter. -/
def specAmenitiesMatches (amenities : Option String) (doc : Listing) : Bool :=
  match amenities with
  | none => true
  | some s =>
    (splitCsvTrim s).all (fun a => (doc.amenities.map strLower).contains (strLower a))

/-- Outcome of the geo-parameter handling in the GET /properties handler. -/
inductive GeoOutcome where
  | noFilter
  | badRequest400
  | geoFilter (lat lon radius : ℚ)
  deriving DecidableEq

/-- The validation of the three parsed geo values (api_service/src/index.ts
lines 184-189): all numbers and a positive radius push the geo-distance
filter, anything else answers 400. -/
def geoDecide : JSNum → JSNum → JSNum → GeoOutcome
  | .num a, .num o, .num r => if 0 < r then .geoFilter a o r else .badRequest400
  | _, _, _ => .badRequest400

/-- Embedding of the geo-parameter handling (api_service/src/index.ts lines
176-190): only when all three of lat, lon, radius_km are truthy are they
parsed and validated; when at least one parameter is absent or empty the
block is skipped entirely. -/
def geoHandling (lat lon radius_km : Option String) : GeoOutcome :=
  if jsTruthyStr lat && jsTruthyStr lon && jsTruthyStr radius_km then
    geoDecide (jsParseFloat (lat.getD "")) (jsParseFloat (lon.getD ""))
      (jsParseFloat (radius_km.getD ""))
  else .noFilter

/-- parseInt applied to an optional query parameter; an absent parameter
stringifies to undefined and parses to NaN. -/
def jsParseIntOpt : Option String → JSInt
  | none => .nan
  | some s => jsParseInt s

/-- The page value computed by the handler (api_service/src/index.ts line
157): parseInt(pageQuery) || 1, so NaN and 0 both fall back to 1. -/
def pageFromQuery (pq : Option String) : Int :=
  match jsParseIntOpt pq with
  | .nan => 1
  | .num n => if n = 0 then 1 else n

/-- The limit value computed by the handler (line 158):
parseInt(limitQuery) || 10. -/
def limitFromQuery (lq : Option String) : Int :=
  match jsParseIntOpt lq with
  | .nan => 10
  | .num n => if n = 0 then 10 else n

/-- The 400 test of the handler (api_service/src/index.ts lines 161-162):
page < 1 or limit < 1 after the fallback defaults. -/
def pageLimitRejected (pq lq : Option String) : Bool :=
  decide (pageFromQuery pq < 1) || decide (limitFromQuery lq < 1)

/-- Result of the consume call on the rate-limiter backing store. -/
inductive ConsumeOutcome where
  | consumed
  | limitReached (msBeforeNext : Nat)
  | storeError
  deriving DecidableEq

/-- Response decided by the rate-limiting middleware for one request. -/
inductive MwResponse where
  | pass
  | tooMany429 (retryAfterSecs : Nat)
  | serverError500
  deriving DecidableEq

/-- Embedding of rateLimiterMiddleware (rate-limited API service variant,
lines 100-126): with the limiter uninitialized the middleware re-initializes
it when the Redis connection is ready and otherwise lets the request through;
with a limiter available, a successful consume passes the request, a
rate-limit rejection answers 429 with Retry-After of ceil(msBeforeNext/1000)
seconds, and an Error thrown by consume (the backing store failing) answers
500. -/
def rateLimiterMiddleware (limiterInitialized redisReady : Bool)
    (consume : ConsumeOutcome) : MwResponse :=
  if !limiterInitialized && !redisReady then .pass
  else
    match consume with
    | .consumed => .pass
    | .limitReached ms => .tooMany429 ((ms + 999) / 1000)
    | .storeError => .serverError500


theorem charToNat_inj {x y : Char} (h : x.toNat = y.toNat) : x = y :=
  Char.ext (UInt32.ext h)

theorem charListLe_total (a : List Char) :
    ∀ b, charListLe a b = true ∨ charListLe b a = true := by
  induction a with
  | nil => intro b; left; rfl
  | cons x xs ih =>
    intro b
    cases b with
    | nil => right; rfl
    | cons y ys =>
      by_cases hxy : x = y
      · subst hxy
        rcases ih ys with h | h
        · left; simpa [charListLe] using h
        · right; simpa [charListLe] using h
      · have hne : x.toNat ≠ y.toNat := fun hn => hxy (charToNat_inj hn)
        rcases Nat.lt_or_ge x.toNat y.toNat with hlt | hge
        · left; simp [charListLe, hxy, hlt]
        · have hyx : y ≠ x := fun he => hxy he.symm
          have hlt : y.toNat < x.toNat :=
            Nat.lt_of_le_of_ne hge (fun he => hne he.symm)
          right; simp [charListLe, hyx, hlt]

theorem charListLe_trans (a : List Char) :
    ∀ b c, charListLe a b = true → charListLe b c = true → charListLe a c = true := by
  induction a with
  | nil => intro b c _ _; rfl
  | cons x xs ih =>
    intro b c hab hbc
    cases b with
    | nil => simp [charListLe] at hab
    | cons y ys =>
      cases c with
      | nil => simp [charListLe] at hbc
      | cons z zs =>
        by_cases hxy : x = y
        · subst hxy
          by_cases hyz : x = z
          · subst hyz
            simp only [charListLe, if_pos rfl] at hab hbc ⊢
            exact ih ys zs hab hbc
          · simp only [charListLe, if_pos rfl] at hab
            simpa [charListLe, hyz] using hbc
        · by_cases hyz : y = z
          · subst hyz
            simpa [charListLe, hxy] using hab
          · simp only [charListLe, if_neg hxy, decide_eq_true_eq] at hab
            simp only [charListLe, if_neg hyz, decide_eq_true_eq] at hbc
            have hxz : x.toNat < z.toNat := Nat.lt_trans hab hbc
            have hne : x ≠ z := fun he => Nat.lt_irrefl _ (he ▸ hxz)
            simp [charListLe, hne, hxz]

theorem charListLe_antisymm (a : List Char) :
    ∀ b, charListLe a b = true → charListLe b a = true → a = b := by
  induction a with
  | nil =>
    intro b _ hba
    cases b with
    | nil => rfl
    | cons y ys => simp [charListLe] at hba
  | cons x xs ih =>
    intro b hab hba
    cases b with
    | nil => simp [charListLe] at hab
    | cons y ys =>
      by_cases hxy : x = y
      · subst hxy
        simp only [charListLe, if_pos rfl] at hab hba
        rw [ih ys hab hba]
      · have hyx : y ≠ x := fun he => hxy he.symm
        simp only [charListLe, if_neg hxy, decide_eq_true_eq] at hab
        simp only [charListLe, if_neg hyx, decide_eq_true_eq] at hba
        exact absurd (Nat.lt_trans hab hba) (Nat.lt_irrefl _)

theorem strLeP_total (a b : String) : strLeP a b ∨ strLeP b a :=
  charListLe_total a.data b.data

theorem strLeP_trans (a b c : String) : strLeP a b → strLeP b c → strLeP a c :=
  charListLe_trans a.data b.data c.data

theorem strLeP_antisymm (a b : String) : strLeP a b → strLeP b a → a = b :=
  fun h1 h2 => String.ext (charListLe_antisymm a.data b.data h1 h2)

theorem dupOrder_total (sim : String → String → ℚ) (t : String) (a b : DupCandidate) :
    dupOrder sim t a b ∨ dupOrder sim t b a := by
  unfold dupOrder
  rcases lt_trichotomy (sim a.title t) (sim b.title t) with h | h | h
  · right; left; exact h
  · rcases Nat.le_total b.scrape_timestamp a.scrape_timestamp with hts | hts
    · left; right; exact ⟨h, hts⟩
    · right; right; exact ⟨h.symm, hts⟩
  · left; left; exact h

theorem dupOrder_trans (sim : String → String → ℚ) (t : String) (a b c : DupCandidate) :
    dupOrder sim t a b → dupOrder sim t b c → dupOrder sim t a c := by
  unfold dupOrder
  rintro (hab | ⟨he1, ht1⟩) (hbc | ⟨he2, ht2⟩)
  · left; exact lt_trans hbc hab
  · left; exact he2 ▸ hab
  · left; exact he1.symm ▸ hbc
  · right; exact ⟨he1.trans he2, le_trans ht2 ht1⟩

theorem lookupKV_mem {k v : String} {m : List (String × String)}
    (h : lookupKV k m = some v) : (k, v) ∈ m := by
  induction m with
  | nil => cases h
  | cons p t ih =>
    by_cases hp : p.1 = k
    · simp only [lookupKV, if_pos hp] at h
      cases h
      subst hp
      exact List.mem_cons_self _ _
    · simp only [lookupKV, if_neg hp] at h
      exact List.mem_cons_of_mem _ (ih h)

theorem lookupKV_eq_some_of_mem {k v : String} {m : List (String × String)}
    (d : (m.map Prod.fst).Nodup) (h : (k, v) ∈ m) : lookupKV k m = some v := by
  induction m with
  | nil => cases h
  | cons p t ih =>
    rw [List.map_cons, List.nodup_cons] at d
    rcases List.mem_cons.mp h with h | h
    · subst h
      simp [lookupKV]
    · have hne : p.1 ≠ k := by
        intro he
        exact d.1 (he ▸ List.mem_map_of_mem Prod.fst h)
      simp only [lookupKV, if_neg hne]
      exact ih d.2 h

theorem lookupKV_isSome_iff (k : String) (m : List (String × String)) :
    (lookupKV k m).isSome = true ↔ k ∈ m.map Prod.fst := by
  induction m with
  | nil => simp [lookupKV]
  | cons p t ih =>
    by_cases hp : p.1 = k
    · simp [lookupKV, hp]
    · have : k ≠ p.1 := fun he => hp he.symm
      simp [lookupKV, hp, ih, this]

theorem lookupKV_congr {m1 m2 : List (String × String)}
    (d1 : (m1.map Prod.fst).Nodup) (d2 : (m2.map Prod.fst).Nodup)
    (h : m1.Perm m2) (k : String) : lookupKV k m1 = lookupKV k m2 := by
  cases h1 : lookupKV k m1 with
  | some v =>
    exact (lookupKV_eq_some_of_mem d2 (h.mem_iff.mp (lookupKV_mem h1))).symm
  | none =>
    cases h2 : lookupKV k m2 with
    | none => rfl
    | some v =>
      have := lookupKV_eq_some_of_mem d1 (h.mem_iff.mpr (lookupKV_mem h2))
      rw [h1] at this
      cases this

theorem splitNonAlnumAux_append (l1 : List Char) (c : Char) (l2 : List Char)
    (hc : c.isAlphanum = false) :
    ∀ acc, splitNonAlnumAux (l1 ++ c :: l2) acc =
      splitNonAlnumAux l1 acc ++ splitNonAlnumAux l2 [] := by
  induction l1 with
  | nil => intro acc; simp [splitNonAlnumAux, hc]
  | cons d t ih =>
    intro acc
    by_cases hd : d.isAlphanum
    · simp [splitNonAlnumAux, hd, ih]
    · simp [splitNonAlnumAux, hd, ih]

theorem strLower_append (a b : String) :
    strLower (a ++ b) = strLower a ++ strLower b := by
  apply String.ext
  simp [strLower, String.data_append]

theorem analyzeTokens_append_space (a b : String) :
    analyzeTokens (a ++ " " ++ b) = analyzeTokens a ++ analyzeTokens b := by
  unfold analyzeTokens
  rw [strLower_append, strLower_append]
  have hsp : strLower " " = " " := by decide
  rw [hsp]
  have hdata : (strLower a ++ " " ++ strLower b).data =
      (strLower a).data ++ ' ' :: (strLower b).data := by
    simp [String.data_append]
  rw [hdata, splitNonAlnumAux_append _ _ _ (by decide), List.map_append, List.filter_append]

theorem analyzeTokens_joinSpace (items : List String) :
    analyzeTokens (joinSpace items) = items.flatMap analyzeTokens := by
  induction items with
  | nil => decide
  | cons a rest ih =>
    cases rest with
    | nil => simp [joinSpace]
    | cons b t =>
      have hj : joinSpace (a :: b :: t) = a ++ " " ++ joinSpace (b :: t) := rfl
      rw [hj, analyzeTokens_append_space, ih]
      simp [List.flatMap_cons]

theorem joinSpace_ne_empty (items : List String) (hne : items ≠ [])
    (h : ∀ i ∈ items, i ≠ "") : joinSpace items ≠ "" := by
  cases items with
  | nil => exact absurd rfl hne
  | cons a rest =>
    cases rest with
    | nil => exact h a (List.mem_singleton_self a)
    | cons b t =>
      intro he
      have : (joinSpace (a :: b :: t)).data = [] := by rw [he]
      have hd : (a ++ " " ++ joinSpace (b :: t)).data =
          a.data ++ ' ' :: (joinSpace (b :: t)).data := by
        simp [String.data_append]
      rw [show joinSpace (a :: b :: t) = a ++ " " ++ joinSpace (b :: t) from rfl, hd] at this
      exact List.cons_ne_nil _ _ (List.append_eq_nil.mp this).2

/-- C1: the specification states that parsePrice detects the currency by
scanning, in order, for the symbols and the codes USD EUR CAD GBP
(case-insensitive), first match winning, CAD matched only by code, and that
it returns normally with an absent currency when none occur.  On the code
this fails: price_string_lower (utils.ts line 195) is a function, not a
lowercased string, so the call price_string_lower.includes in the EUR branch
raises a TypeError for every input containing neither a dollar sign, nor usd,
nor the euro sign.  The spec-modelled scan yields CAD for "CAD 100" and GBP
for "£800 per month" (as the unit tests of the repository also expect), and
absence for "Contact for price", while the embedded function throws on all
three. -/
theorem C1_parsePrice_throws_where_spec_scans :
    specDetectCurrency "CAD 100" = some "CAD" ∧
    parsePrice (some "CAD 100") =
      .error "TypeError: price_string_lower.includes is not a function" ∧
    specDetectCurrency "£800 per month" = some "GBP" ∧
    parsePrice (some "£800 per month") =
      .error "TypeError: price_string_lower.includes is not a function" ∧
    specDetectCurrency "Contact for price" = none ∧
    parsePrice (some "Contact for price") =
      .error "TypeError: price_string_lower.includes is not a function" := by
  exact ⟨by decide, by decide, by decide, by decide, by decide, by decide⟩

/-- C2: the specification requires the property_type parameter to be matched
against the own normalized property_type field of each listing, explicitly
rejecting the conflation with source_name.  The cited handler
(api_service/src/index.ts lines 197-200) pushes a terms filter on
source_name.keyword instead: a listing whose property_type equals the
requested value but whose source_name differs is excluded, and a listing
whose source_name coincidentally equals the requested value is included even
though its property_type differs. -/
theorem C2_property_type_filter_conflates_source_name :
    propertyTypeFilterMatches (some "apartment")
      ⟨some "apartment", "ScraperA", [], "", "active"⟩ = false ∧
    specPropertyTypeMatches (some "apartment")
      ⟨some "apartment", "ScraperA", [], "", "active"⟩ = true ∧
    propertyTypeFilterMatches (some "apartment")
      ⟨some "house", "apartment", [], "", "active"⟩ = true ∧
    specPropertyTypeMatches (some "apartment")
      ⟨some "house", "apartment", [], "", "active"⟩ = false := by
  exact ⟨by decide, by decide, by decide, by decide⟩

/-- C3 counterexample: the claim says the amenities items are AND-combined
against the amenities field of the listing.  For the request amenities=pool, a
listing whose amenities field contains pool but whose description does not
mention it is excluded by the filter of the handler, which matches against the
description field, while the claimed amenities-field filter accepts it. -/
theorem C3_description_not_amenities_counterexample :
    amenitiesFilterMatches (some "pool")
      ⟨none, "S1", ["pool"], "great place", "active"⟩ = false ∧
    specAmenitiesMatches (some "pool")
      ⟨none, "S1", ["pool"], "great place", "active"⟩ = true := by
  exact ⟨by decide, by decide⟩

/-- C4 counterexample: the claim says a request supplying some but not all of
lat, lon, radius_km receives HTTP 400.  The handler only enters the
validation block when all three parameters are truthy, so a request carrying
only lat is served without the geo filter and without a 400. -/
theorem C4_incomplete_geo_triple_not_rejected :
    geoHandling (some "40.7") none none = GeoOutcome.noFilter ∧
    GeoOutcome.noFilter ≠ GeoOutcome.badRequest400 := by
  exact ⟨by decide, by decide⟩

/-- C5 counterexample: the claim says page or limit denoting 0 yields HTTP
400.  The handler computes parseInt(page) || 1, so a 0 value falls back to
the default before the < 1 test and the request is served normally. -/
theorem C5_zero_page_not_rejected :
    pageLimitRejected (some "0") none = false ∧
    pageLimitRejected none (some "0") = false := by
  exact ⟨by decide, by decide⟩

theorem pageFromQuery_lt_one_iff (pq : Option String) :
    pageFromQuery pq < 1 ↔ ∃ n : Int, jsParseIntOpt pq = .num n ∧ n < 0 := by
  unfold pageFromQuery
  cases h : jsParseIntOpt pq with
  | nan => simp
  | num n =>
    by_cases h0 : n = 0
    · subst h0; simp
    · simp [h0]
      omega

theorem limitFromQuery_lt_one_iff (lq : Option String) :
    limitFromQuery lq < 1 ↔ ∃ n : Int, jsParseIntOpt lq = .num n ∧ n < 0 := by
  unfold limitFromQuery
  cases h : jsParseIntOpt lq with
  | nan => simp
  | num n =>
    by_cases h0 : n = 0
    · subst h0; simp
    · simp [h0]
      omega

/-- C5 amended: the GET /properties handler answers 400 for page or limit
exactly when the parameter parses (by parseInt) to a negative integer; a
parameter parsing to 0 or to NaN is replaced by the default (1 or 10) and is
not rejected. -/
theorem C5_rejected_iff_negative (pq lq : Option String) :
    pageLimitRejected pq lq = true ↔
      (∃ n : Int, jsParseIntOpt pq = .num n ∧ n < 0) ∨
      (∃ n : Int, jsParseIntOpt lq = .num n ∧ n < 0) := by
  unfold pageLimitRejected
  rw [Bool.or_eq_true, decide_eq_true_iff, decide_eq_true_iff,
    pageFromQuery_lt_one_iff, limitFromQuery_lt_one_iff]

theorem C5_rejected_iff_negative_witness :
    pageLimitRejected (some "-2") none = true := by
  exact (C5_rejected_iff_negative (some "-2") none).mpr
    (Or.inl ⟨-2, by decide, by decide⟩)

/-- C6 counterexample: the claim says that when the consume call on the
rate-limit backing store fails with an error the limiter fails open.  With
the limiter initialized, the middleware answers such a request with HTTP 500
instead of passing it through. -/
theorem C6_consume_error_yields_500 :
    rateLimiterMiddleware true true ConsumeOutcome.storeError =
      MwResponse.serverError500 ∧
    MwResponse.serverError500 ≠ MwResponse.pass := by
  exact ⟨by decide, by decide⟩

/-- C6 amended: the middleware fails open only on the uninitialized-limiter
path (limiter absent and the Redis connection not ready for
re-initialization); with a limiter available, a successful consume passes the
request, an exceeded budget answers 429 with Retry-After ceil(ms/1000)
seconds, and an Error thrown by consume answers 500. -/
theorem C6_rate_limiter_disposition (init ready : Bool) (c : ConsumeOutcome) :
    (init = false → ready = false → rateLimiterMiddleware init ready c = .pass) ∧
    ((init = true ∨ ready = true) → c = .consumed →
      rateLimiterMiddleware init ready c = .pass) ∧
    ((init = true ∨ ready = true) → c = .storeError →
      rateLimiterMiddleware init ready c = .serverError500) ∧
    ((init = true ∨ ready = true) → ∀ ms, c = .limitReached ms →
      rateLimiterMiddleware init ready c = .tooMany429 ((ms + 999) / 1000)) := by
  unfold rateLimiterMiddleware
  cases init <;> cases ready <;> cases c <;> simp

theorem C6_rate_limiter_disposition_witness :
    rateLimiterMiddleware true true ConsumeOutcome.consumed = MwResponse.pass ∧
    rateLimiterMiddleware false false ConsumeOutcome.storeError = MwResponse.pass ∧
    rateLimiterMiddleware true true (ConsumeOutcome.limitReached 1500) =
      MwResponse.tooMany429 2 := by
  refine ⟨(C6_rate_limiter_disposition true true ConsumeOutcome.consumed).2.1
      (Or.inl rfl) rfl,
    (C6_rate_limiter_disposition false false ConsumeOutcome.storeError).1 rfl rfl,
    ?_⟩
  have h := (C6_rate_limiter_disposition true true
    (ConsumeOutcome.limitReached 1500)).2.2.2 (Or.inl rfl) 1500 rfl
  exact h

/-- C4 amended: the geo handling of GET /properties applies the geo-distance
filter exactly when lat, lon and radius_km are all supplied non-empty, all
parse as numbers, and the radius is positive; when all three are supplied but
a parse fails or the radius is not positive the response is 400; when some
but not all are supplied the parameters are ignored, no filter is applied and
no 400 is produced. -/
theorem C4_geo_disposition (lat lon radius_km : Option String) :
    ((jsTruthyStr lat && jsTruthyStr lon && jsTruthyStr radius_km) = false →
      geoHandling lat lon radius_km = .noFilter) ∧
    ((jsTruthyStr lat && jsTruthyStr lon && jsTruthyStr radius_km) = true →
      ((geoHandling lat lon radius_km = .badRequest400 ↔
        ¬ ∃ a o r : ℚ, jsParseFloat (lat.getD "") = .num a ∧
          jsParseFloat (lon.getD "") = .num o ∧
          jsParseFloat (radius_km.getD "") = .num r ∧ 0 < r) ∧
      ∀ a o r : ℚ, jsParseFloat (lat.getD "") = .num a →
        jsParseFloat (lon.getD "") = .num o →
        jsParseFloat (radius_km.getD "") = .num r → 0 < r →
        geoHandling lat lon radius_km = .geoFilter a o r)) := by
  constructor
  · intro h
    unfold geoHandling
    simp [h]
  · intro h
    unfold geoHandling
    rw [h]
    rw [if_pos rfl]
    cases hA : jsParseFloat (lat.getD "") with
    | nan =>
      refine ⟨⟨fun _ => ?_, fun _ => rfl⟩, fun x y z hx hy hz hp => ?_⟩
      · rintro ⟨x, y, z, hx, hy, hz, hp⟩
        cases hx
      · cases hx
    | num a =>
      cases hO : jsParseFloat (lon.getD "") with
      | nan =>
        refine ⟨⟨fun _ => ?_, fun _ => rfl⟩, fun x y z hx hy hz hp => ?_⟩
        · rintro ⟨x, y, z, hx, hy, hz, hp⟩
          cases hy
        · cases hy
      | num o =>
        cases hR : jsParseFloat (radius_km.getD "") with
        | nan =>
          refine ⟨⟨fun _ => ?_, fun _ => rfl⟩, fun x y z hx hy hz hp => ?_⟩
          · rintro ⟨x, y, z, hx, hy, hz, hp⟩
            cases hz
          · cases hz
        | num r =>
          simp only [geoDecide]
          by_cases hpos : 0 < r
          · rw [if_pos hpos]
            refine ⟨⟨fun hgeo => ?_, fun hnex => ?_⟩,
              fun x y z hx hy hz hp => ?_⟩
            · cases hgeo
            · exact (hnex ⟨a, o, r, rfl, rfl, rfl, hpos⟩).elim
            · cases hx; cases hy; cases hz; rfl
          · rw [if_neg hpos]
            refine ⟨⟨fun _ => ?_, fun _ => rfl⟩,
              fun x y z hx hy hz hp => ?_⟩
            · rintro ⟨x, y, z, hx, hy, hz, hp⟩
              cases hx; cases hy; cases hz
              exact hpos hp
            · cases hx; cases hy; cases hz
              exact absurd hp hpos

theorem C4_geo_disposition_witness :
    geoHandling (some "10") (some "20") (some "0") = GeoOutcome.badRequest400 := by
  have h := ((C4_geo_disposition (some "10") (some "20") (some "0")).2 (by decide)).1
  refine h.mpr ?_
  rintro ⟨a, o, r, ha, ho, hr, hpos⟩
  have hz : jsParseFloat ((some "0" : Option String).getD "") = JSNum.num 0 := by decide
  rw [hz] at hr
  cases hr
  exact absurd hpos (lt_irrefl 0)

/-- C3 amended: for a non-empty list of requested amenity items the handler
filter accepts a listing exactly when the items, analyzed into lower-cased
tokens, are all present among the analyzed tokens of the description field of
the listing (not its amenities field); an empty item list applies no
filter. -/
theorem C3_amenities_filter_on_description (amenities : Option String) (doc : Listing) :
    (amenityItems amenities = [] → amenitiesFilterMatches amenities doc = true) ∧
    (amenityItems amenities ≠ [] →
      (amenitiesFilterMatches amenities doc = true ↔
        (amenityItems amenities).flatMap analyzeTokens ≠ [] ∧
        ∀ t ∈ (amenityItems amenities).flatMap analyzeTokens,
          t ∈ analyzeTokens doc.description)) := by
  cases amenities with
  | none => exact ⟨fun _ => rfl, fun hne => absurd rfl hne⟩
  | some s =>
    by_cases hs : s = ""
    · subst hs
      exact ⟨fun _ => rfl, fun hne => absurd rfl hne⟩
    · have hsb : ¬((s == "") = true) := by simp [hs]
      have hitems : amenityItems (some s) = splitCsvTrim s := by
        simp only [amenityItems]
        rw [if_neg hsb]
      rw [hitems]
      refine ⟨fun hemp => ?_, fun hne => ?_⟩
      · simp [amenitiesFilterMatches, amenityQueryString, hs, hemp, joinSpace]
      · have hnemp : ∀ i ∈ splitCsvTrim s, i ≠ "" := by
          intro i hi
          have := List.of_mem_filter hi
          simpa using this
        have hjoin : joinSpace (splitCsvTrim s) ≠ "" := joinSpace_ne_empty _ hne hnemp
        have hjb : ¬((joinSpace (splitCsvTrim s) == "") = true) := by simp [hjoin]
        have hq : amenityQueryString (some s) = some (joinSpace (splitCsvTrim s)) := by
          simp only [amenityQueryString]
          rw [if_neg hsb, if_neg hjb]
        have hmq : amenitiesFilterMatches (some s) doc =
            matchQueryAnd (joinSpace (splitCsvTrim s)) doc.description := by
          unfold amenitiesFilterMatches
          rw [hq]
        rw [hmq]
        unfold matchQueryAnd
        rw [analyzeTokens_joinSpace]
        by_cases hemp : (splitCsvTrim s).flatMap analyzeTokens = []
        · simp [hemp]
        · have hempb : ¬(((splitCsvTrim s).flatMap analyzeTokens).isEmpty = true) := by
            simp [List.isEmpty_iff, hemp]
          rw [if_neg hempb, List.all_eq_true]
          constructor
          · intro hall
            exact ⟨hemp, fun t ht => List.elem_iff.mp (hall t ht)⟩
          · rintro ⟨_, hall⟩
            exact fun t ht => List.elem_iff.mpr (hall t ht)

theorem C3_amenities_filter_on_description_witness :
    amenitiesFilterMatches (some "wifi, pool")
      ⟨none, "S1", [], "has wifi and a pool", "active"⟩ = true := by
  have h := (C3_amenities_filter_on_description (some "wifi, pool")
    ⟨none, "S1", [], "has wifi and a pool", "active"⟩).2 (by decide)
  exact h.mpr ⟨by decide, by decide⟩

/-- C8: in every record the price section of the pipeline produces, presence
of normalized_price_usd implies presence of both price_original_numeric and
currency_original: the handler only computes the USD value inside the branch
guarded by the truthiness of both parse results. -/
theorem C8_normalized_price_presence (price_text price area_text area : Option String)
    (r : PriceAreaFields)
    (h : processPriceArea price_text price area_text area = .ok r)
    (hn : r.normalized_price_usd.isSome = true) :
    r.price_original_numeric.isSome = true ∧ r.currency_original.isSome = true := by
  unfold processPriceArea at h
  cases hp : parsePrice (jsOrStr price_text price) with
  | error e =>
    rw [hp] at h
    cases h
  | ok pp =>
    rw [hp] at h
    cases h
    by_cases hc : (jsTruthyOptNum pp.amount && jsTruthyStr pp.currency) = true
    · refine ⟨?_, ?_⟩
      · have h1 : jsTruthyOptNum pp.amount = true := by
          rw [Bool.and_eq_true] at hc
          exact hc.1
        cases ha : pp.amount with
        | none => rw [ha] at h1; cases h1
        | some n => simp
      · have h2 : jsTruthyStr pp.currency = true := by
          rw [Bool.and_eq_true] at hc
          exact hc.2
        cases hcur : pp.currency with
        | none => rw [hcur] at h2; cases h2
        | some c => simp
    · rw [show (⟨pp.amount, pp.currency,
          if jsTruthyOptNum pp.amount && jsTruthyStr pp.currency then
            convertToUSD pp.amount pp.currency
          else none,
          (parseArea (jsOrStr area_text area)).value,
          (parseArea (jsOrStr area_text area)).unit,
          if jsTruthyOptNum (parseArea (jsOrStr area_text area)).value &&
              jsTruthyStr (parseArea (jsOrStr area_text area)).unit then
            convertToSqft (parseArea (jsOrStr area_text area)).value
              (parseArea (jsOrStr area_text area)).unit
          else none⟩ : PriceAreaFields).normalized_price_usd =
          if jsTruthyOptNum pp.amount && jsTruthyStr pp.currency then
            convertToUSD pp.amount pp.currency
          else none from rfl, if_neg hc] at hn
      cases hn

theorem C8_normalized_price_presence_witness :
    (⟨some (JSNum.num 5), some "USD", some (jsMulRate (JSNum.num 5) 1),
        none, none, none⟩ : PriceAreaFields).price_original_numeric.isSome = true ∧
    (⟨some (JSNum.num 5), some "USD", some (jsMulRate (JSNum.num 5) 1),
        none, none, none⟩ : PriceAreaFields).currency_original.isSome = true := by
  exact C8_normalized_price_presence (some "$5") none none none
    ⟨some (JSNum.num 5), some "USD", some (jsMulRate (JSNum.num 5) 1),
      none, none, none⟩ rfl rfl

/-- C10: a parsed amount of 0 is falsy in JavaScript, so the pipeline leaves
normalized_price_usd absent even when an amount (0) and a currency were both
parsed; likewise a parsed area value of 0 leaves normalized_area_sqft
absent. -/
theorem C10_zero_values_not_normalized (price_text price area_text area : Option String)
    (r : PriceAreaFields)
    (h : processPriceArea price_text price area_text area = .ok r) :
    (r.price_original_numeric = some (.num 0) → r.normalized_price_usd = none) ∧
    (r.area_original_value = some (.num 0) → r.normalized_area_sqft = none) := by
  unfold processPriceArea at h
  cases hp : parsePrice (jsOrStr price_text price) with
  | error e =>
    rw [hp] at h
    cases h
  | ok pp =>
    rw [hp] at h
    cases h
    constructor
    · intro ha
      have h0 : jsTruthyOptNum pp.amount = false := by
        rw [show pp.amount = some (JSNum.num 0) from ha]
        decide
      simp [h0]
    · intro ha
      have h0 : jsTruthyOptNum (parseArea (jsOrStr area_text area)).value = false := by
        rw [show (parseArea (jsOrStr area_text area)).value = some (JSNum.num 0) from ha]
        decide
      simp [h0]

theorem C10_zero_values_not_normalized_witness :
    (⟨some (JSNum.num 0), some "USD", none, some (JSNum.num 0), some "sqft", none⟩ :
      PriceAreaFields).normalized_price_usd = none ∧
    (⟨some (JSNum.num 0), some "USD", none, some (JSNum.num 0), some "sqft", none⟩ :
      PriceAreaFields).normalized_area_sqft = none := by
  have h := C10_zero_values_not_normalized (some "$0") none (some "0 sqft") none
    ⟨some (JSNum.num 0), some "USD", none, some (JSNum.num 0), some "sqft", none⟩
    (by decide)
  exact ⟨h.1 (by decide), h.2 (by decide)⟩

/-- C7: for an ingested listing the duplicate candidates are ordered by
descending title similarity with descending scrape_timestamp as tie-break;
every candidate comes from the store and satisfies the active-status,
different-source and similarity-threshold conditions; a non-empty candidate
list marks the record potential_duplicate referencing the id of the first
candidate, an empty list leaves it active with a null reference; and missing
coordinates, a missing title, or a failing candidate query produce an empty
candidate list (hence an active record). -/
theorem C7_duplicate_ordering_and_marking (sim : String → String → ℚ)
    (latThr lonThr simThr : ℚ) (db : List DupCandidate) (queryFails : Bool)
    (p : ProcessedProp) :
    List.Sorted (dupOrder sim p.title)
      (findPotentialDuplicates sim latThr lonThr simThr db queryFails p) ∧
    (∀ c ∈ findPotentialDuplicates sim latThr lonThr simThr db queryFails p,
      c ∈ db ∧ c.status = "active" ∧ c.source_name ≠ p.source_name ∧
        simThr ≤ sim c.title p.title) ∧
    (findPotentialDuplicates sim latThr lonThr simThr db queryFails p = [] →
      applyDedup (findPotentialDuplicates sim latThr lonThr simThr db queryFails p) =
        ⟨"active", none⟩) ∧
    (∀ c cs, findPotentialDuplicates sim latThr lonThr simThr db queryFails p = c :: cs →
      applyDedup (findPotentialDuplicates sim latThr lonThr simThr db queryFails p) =
        ⟨"potential_duplicate", some c.id⟩) ∧
    ((p.latitude = none ∨ p.longitude = none ∨ p.title = "" ∨ queryFails = true) →
      findPotentialDuplicates sim latThr lonThr simThr db queryFails p = []) := by
  haveI : IsTotal DupCandidate (dupOrder sim p.title) := ⟨dupOrder_total sim p.title⟩
  haveI : IsTrans DupCandidate (dupOrder sim p.title) := ⟨dupOrder_trans sim p.title⟩
  refine ⟨?_, ?_, ?_, ?_, ?_⟩
  · unfold findPotentialDuplicates
    cases hla : p.latitude with
    | none => exact List.sorted_nil
    | some la =>
      cases hlo : p.longitude with
      | none => exact List.sorted_nil
      | some lo =>
        dsimp only
        by_cases ht : (p.title == "") = true
        · rw [if_pos ht]; exact List.sorted_nil
        · rw [if_neg ht]
          by_cases hf : queryFails
          · rw [if_pos hf]; exact List.sorted_nil
          · rw [if_neg hf]
            exact List.sorted_insertionSort _ _
  · intro c hc
    unfold findPotentialDuplicates at hc
    cases hla : p.latitude with
    | none => rw [hla] at hc; cases hc
    | some la =>
      cases hlo : p.longitude with
      | none => rw [hla, hlo] at hc; cases hc
      | some lo =>
        rw [hla, hlo] at hc
        dsimp only at hc
        by_cases ht : (p.title == "") = true
        · rw [if_pos ht] at hc; cases hc
        · rw [if_neg ht] at hc
          by_cases hf : queryFails
          · rw [if_pos hf] at hc; cases hc
          · rw [if_neg hf] at hc
            unfold dupQuery at hc
            have hmem := (List.perm_insertionSort
              (dupOrder sim p.title) _).mem_iff.mp hc
            have hfil := List.mem_filter.mp hmem
            have hw := hfil.2
            unfold dupWhere at hw
            simp only [Bool.and_eq_true, beq_iff_eq, bne_iff_ne, ne_eq,
              decide_eq_true_eq] at hw
            exact ⟨hfil.1, hw.1.1.1.1.1.1, hw.1.1.1.1.1.2, hw.2⟩
  · intro h
    rw [h]
    rfl
  · intro c cs h
    rw [h]
    rfl
  · rintro (h | h | h | h)
    · unfold findPotentialDuplicates
      rw [h]
    · unfold findPotentialDuplicates
      rw [h]
      cases p.latitude <;> rfl
    · unfold findPotentialDuplicates
      cases p.latitude with
      | none => rfl
      | some la =>
        cases p.longitude with
        | none => rfl
        | some lo =>
          dsimp only
          have ht : (p.title == "") = true := by simp [h]
          rw [if_pos ht]
    · unfold findPotentialDuplicates
      cases p.latitude with
      | none => rfl
      | some la =>
        cases p.longitude with
        | none => rfl
        | some lo =>
          dsimp only
          by_cases ht : (p.title == "") = true
          · rw [if_pos ht]
          · rw [if_neg ht, if_pos h]

theorem C7_duplicate_ordering_and_marking_witness :
    findPotentialDuplicates (fun _ _ => 1) 0 0 0 [] false ⟨"T", "S", none, none⟩ = [] ∧
    applyDedup (findPotentialDuplicates (fun _ _ => 1) 0 0 0 [] false
      ⟨"T", "S", none, none⟩) = ⟨"active", none⟩ := by
  have h := C7_duplicate_ordering_and_marking (fun _ _ => 1) 0 0 0 [] false
    ⟨"T", "S", none, none⟩
  have he := h.2.2.2.2 (Or.inl rfl)
  exact ⟨he, h.2.2.1 he⟩

/-- C9: generateCacheKey is insensitive to the order of the query parameters:
two parameter maps with unique keys that are equal as maps (one a permutation
of the other) produce the same cache key, because the keys are sorted and the
serialized object is rebuilt by key lookup before hashing. -/
theorem C9_cache_key_order_insensitive (md5 : String → String) (pre : String)
    (m1 m2 : List (String × String)) (d1 : (m1.map Prod.fst).Nodup)
    (d2 : (m2.map Prod.fst).Nodup) (h : m1.Perm m2) :
    generateCacheKey md5 pre m1 = generateCacheKey md5 pre m2 := by
  unfold generateCacheKey
  dsimp only
  haveI : IsTotal String strLeP := ⟨strLeP_total⟩
  haveI : IsTrans String strLeP := ⟨strLeP_trans⟩
  haveI : IsAntisymm String strLeP := ⟨strLeP_antisymm⟩
  have hks : List.insertionSort strLeP (m1.map Prod.fst) =
      List.insertionSort strLeP (m2.map Prod.fst) :=
    @List.eq_of_perm_of_sorted String strLeP _ _ _
      ((List.perm_insertionSort _ _).trans ((h.map Prod.fst).trans
        (List.perm_insertionSort _ _).symm))
      (List.sorted_insertionSort _ _) (List.sorted_insertionSort _ _)
  rw [hks]
  have hmap : (List.insertionSort strLeP (m2.map Prod.fst)).map
        (fun k => (k, (lookupKV k m1).getD "")) =
      (List.insertionSort strLeP (m2.map Prod.fst)).map
        (fun k => (k, (lookupKV k m2).getD "")) := by
    apply List.map_congr_left
    intro k _
    rw [lookupKV_congr d1 d2 h k]
  rw [hmap]

theorem C9_cache_key_order_insensitive_witness :
    generateCacheKey (fun s => s) "properties" [("limit", "10"), ("page", "1")] =
      generateCacheKey (fun s => s) "properties" [("page", "1"), ("limit", "10")] := by
  exact C9_cache_key_order_insensitive (fun s => s) "properties" _ _
    (by decide) (by decide) (by decide)
